import Mathlib

/-
Verification of the sync/diff core of the repository
(packages/syft/src/syft/service/sync/diff_state.py).

The Python data model is shallowly embedded:
  - UIDs are Nat.
  - Permission grants (ActionObjectPermission) are Nat (opaque, compared by equality).
  - Python dicts are association lists (List (Nat, v)); lookup finds the first
    matching key, insertion overwrites in place (dictSet).  Dicts built here never
    hold a key twice, so first-match lookup agrees with Python semantics.
  - Python sets are lists used only through membership; where Python iterates a set
    (iteration order unspecified) the embedding fixes first-occurrence order.
  - Exceptions are Option/Except results.
-/

/-- Syncable object kinds appearing in diff_state.py (closed set used by
isinstance dispatch in _sort_hierarchies and visual_hierarchy). -/
inductive SKind where
  | request
  | userCode
  | userCodeStatusCollection
  | executionOutput
  | job
  | syftLog
  | actionObject
  deriving DecidableEq, Repr

/-- A syncable entity: a stable identity, its kind, and one scalar attribute
standing for its allow-listed state (enough to make equality nontrivial). -/
structure SObj where
  id : Nat
  kind : SKind
  val : Nat
  deriving DecidableEq, Repr

/-- AttrDiff from diff_state.py: attribute name with both side values. -/
structure AttrDiff where
  attr_name : String
  low_attr : Nat
  high_attr : Nat
  deriving DecidableEq, Repr

/-- Modelled from the spec: SyftObject.get_diffs (syft/types/syft_object.py is not in
the source tree; only its caller ObjectDiff.from_objects is).  Per spec section 4.1 the
allow-listed attributes of both entities are compared; the single scalar attribute of
SObj stands for them: equal values give no attribute diffs, differing values one. -/
def SObj.get_diffs (low high : SObj) : List AttrDiff :=
  if low.val = high.val then [] else [⟨"val", low.val, high.val⟩]

/-- First-match association-list lookup (Python dict access). -/
def alookup {α : Type} (m : List (Nat × α)) (k : Nat) : Option α :=
  (m.find? (fun p => p.1 = k)).map Prod.snd

/-- Python dict assignment: overwrite the value in place if the key exists,
otherwise append the pair (insertion order preserved). -/
def dictSet {α : Type} (m : List (Nat × α)) (k : Nat) (v : α) : List (Nat × α) :=
  if (m.find? (fun p => p.1 = k)).isSome then
    m.map (fun p => if p.1 = k then (k, v) else p)
  else m ++ [(k, v)]

/-- Deduplication worker: drop elements already seen. -/
def dedupNatAux : List Nat → List Nat → List Nat
  | [], _ => []
  | x :: xs, seen =>
    if x ∈ seen then dedupNatAux xs seen else x :: dedupNatAux xs (x :: seen)

/-- Deduplicate a list of naturals keeping first occurrences (fixes a definite
iteration order for Python set values, whose order is unspecified). -/
def dedupNat (l : List Nat) : List Nat := dedupNatAux l []

/-- ObjectDiff from diff_state.py: pairwise comparison of one identity across the
two sides.  Rendering-only fields are omitted. -/
structure ObjectDiff where
  low_obj : Option SObj
  high_obj : Option SObj
  low_permissions : List Nat
  high_permissions : List Nat
  obj_kind : SKind
  diff_list : List AttrDiff
  deriving DecidableEq, Repr

/-- ObjectDiff.from_objects: raises ValueError when both sides are absent
(embedded as none); with both present the attribute diff list comes from
get_diffs, otherwise it is empty. -/
def ObjectDiff.from_objects (low_obj high_obj : Option SObj)
    (low_permissions high_permissions : List Nat) : Option ObjectDiff :=
  match low_obj, high_obj with
  | none, none => none
  | some l, some h =>
    some { low_obj := some l, high_obj := some h,
           low_permissions := low_permissions, high_permissions := high_permissions,
           obj_kind := l.kind, diff_list := l.get_diffs h }
  | some l, none =>
    some { low_obj := some l, high_obj := none,
           low_permissions := low_permissions, high_permissions := high_permissions,
           obj_kind := l.kind, diff_list := [] }
  | none, some h =>
    some { low_obj := none, high_obj := some h,
           low_permissions := low_permissions, high_permissions := high_permissions,
           obj_kind := h.kind, diff_list := [] }

/-- ObjectDiff.status: NEW when a side is absent, SAME when the attribute diff
list is empty, DIFF otherwise. -/
def ObjectDiff.status (d : ObjectDiff) : String :=
  if d.low_obj.isNone ∨ d.high_obj.isNone then "NEW"
  else if d.diff_list.length = 0 then "SAME"
  else "DIFF"

/-- ObjectDiff.object_id: the id of the present side (low preferred).  With both
sides absent Python would fail on attribute access; that case is unreachable for
diffs built by from_objects and is mapped to 0. -/
def ObjectDiff.object_id (d : ObjectDiff) : Nat :=
  match d.low_obj with
  | some o => o.id
  | none =>
    match d.high_obj with
    | some o => o.id
    | none => 0

/-- ObjectDiff.get_obj: for a NEW diff the non-empty side; for any other status
Python raises ValueError, embedded as none. -/
def ObjectDiff.get_obj (d : ObjectDiff) : Option SObj :=
  if d.status = "NEW" then
    match d.low_obj with
    | some o => some o
    | none => d.high_obj
  else none

/-- ObjectDiffBatch from diff_state.py: diffs in depth-first order (the first is
the batch root), their levels, the dependency map restricted to the batch, and
its inverse (computed by the make_dependents validator). -/
structure ObjectDiffBatch where
  diffs : List ObjectDiff
  hierarchy_levels : List Nat
  dependencies : List (Nat × List Nat)
  dependents : List (Nat × List Nat)
  deriving DecidableEq, Repr

/-- ObjectDiffBatch.make_dependents: structural inverse of the dependency map,
dependents of child = parents listed in encounter order. -/
def makeDependents (dependencies : List (Nat × List Nat)) : List (Nat × List Nat) :=
  dependencies.foldl
    (fun dd p =>
      p.2.foldl (fun dd2 child => dictSet dd2 child (((alookup dd2 child).getD []) ++ [p.1])) dd)
    []

/-- Constructor wrapper running the make_dependents model validator. -/
def mkObjectDiffBatch (diffs : List ObjectDiff) (levels : List Nat)
    (dependencies : List (Nat × List Nat)) : ObjectDiffBatch :=
  { diffs := diffs, hierarchy_levels := levels,
    dependencies := dependencies, dependents := makeDependents dependencies }

/-- ObjectDiffBatch.root is diffs[0]; indexing an empty list raises in Python,
embedded as an Option. -/
def ObjectDiffBatch.root (b : ObjectDiffBatch) : Option ObjectDiff :=
  b.diffs.head?

/-- NodeDiff from diff_state.py: the identity-to-diff map and the union
dependency map. -/
structure NodeDiff where
  obj_uid_to_diff : List (Nat × ObjectDiff)
  dependencies : List (Nat × List Nat)
  deriving DecidableEq, Repr

/-- One iteration of the loop inside NodeDiff.hierarchies._build_hierarchy_helper:
for each child not in the visited set, recurse (through the supplied recursion
function) with the visited set extended by all siblings except the child itself,
concatenating results in order.  none propagates fuel exhaustion. -/
def goChildren (rf : Nat → Nat → List Nat → Option (List (Nat × Nat))) :
    List Nat → List Nat → Nat → List Nat → Option (List (Nat × Nat))
  | [], _, _, _ => some []
  | d :: l, ds, level, visited =>
    if d ∈ visited then goChildren rf l ds level visited
    else
      match rf d (level + 1) (visited ++ ds.filter (fun x => x != d)) with
      | none => none
      | some sub =>
        match goChildren rf l ds level visited with
        | none => none
        | some rest => some (sub ++ rest)

/-- NodeDiff.hierarchies._build_hierarchy_helper, with an explicit fuel argument
bounding the recursion depth (the Python original recurses unboundedly; the
sufficiency of the fuel bound used below is proved separately).  Returns the
depth-first (uid, level) list; none means the fuel ran out. -/
def buildHelperOpt (deps : List (Nat × List Nat)) :
    Nat → Nat → Nat → List Nat → Option (List (Nat × Nat))
  | 0, _, _, _ => none
  | f + 1, uid, level, visited =>
    if uid ∈ visited then some []
    else
      match alookup deps uid with
      | none => some [(uid, level)]
      | some ds =>
        match goChildren (buildHelperOpt deps f) ds ds level (uid :: visited) with
        | none => none
        | some rest => some ((uid, level) :: rest)

/-- All uids mentioned by the dependency map (keys and values): the universe the
visited set can grow inside, used for the fuel bound. -/
def depUniverse (deps : List (Nat × List Nat)) : List Nat :=
  deps.map Prod.fst ++ (deps.map Prod.snd).flatten

/-- Number of universe uids not yet visited: the decreasing measure of the
hierarchy recursion. -/
def remCard (deps : List (Nat × List Nat)) (visited : List Nat) : Nat :=
  ((depUniverse deps).toFinset \ visited.toFinset).card

/-- Total wrapper: _build_hierarchy_helper run with sufficient fuel (one more
than the number of unvisited universe uids). -/
def buildHierarchy (deps : List (Nat × List Nat)) (uid : Nat) : List (Nat × Nat) :=
  (buildHelperOpt deps (remCard deps [] + 1) uid 0 []).getD []

/-- The batch-local dependency map built at the end of NodeDiff.hierarchies:
edges pointing outside the batch are dropped. -/
def restrictDeps (deps : List (Nat × List Nat)) (batchUids : List Nat) :
    List (Nat × List Nat) :=
  batchUids.map (fun uid => (uid, ((alookup deps uid).getD []).filter (fun d => d ∈ batchUids)))

/-- NodeDiff.hierarchies: root ids are diff keys that appear as a child nowhere in
the dependency map; for each root the depth-first helper produces the batch.
Python iterates the set difference in unspecified order; the embedding keeps the
key order of obj_uid_to_diff.  Indexing obj_uid_to_diff with a uid that has no
diff raises KeyError in Python; such uids are dropped here (they do not occur for
NodeDiffs built by from_sync_state, whose diff keys cover every dependency id). -/
def NodeDiff.hierarchies (nd : NodeDiff) : List ObjectDiffBatch :=
  let all_ids := nd.obj_uid_to_diff.map Prod.fst
  let child_ids := (nd.dependencies.map Prod.snd).flatten
  let root_ids := all_ids.filter (fun i => i ∉ child_ids)
  root_ids.map (fun root =>
    let uid_hierarchy := buildHierarchy nd.dependencies root
    let diffs := uid_hierarchy.filterMap (fun p => alookup nd.obj_uid_to_diff p.1)
    let levels := uid_hierarchy.map Prod.snd
    let batch_uids := dedupNat (uid_hierarchy.map Prod.fst)
    mkObjectDiffBatch diffs levels (restrictDeps nd.dependencies batch_uids))

/-- The deduplication loop of the NodeDiff.diffs property: keep a diff when its
object_id has not been seen yet. -/
def dedupDiffs : List ObjectDiff → List Nat → List ObjectDiff
  | [], _ => []
  | d :: rest, ids =>
    if d.object_id ∈ ids then dedupDiffs rest ids
    else d :: dedupDiffs rest (d.object_id :: ids)

/-- NodeDiff.diffs: flatten all hierarchies depth-first, then deduplicate by
object_id keeping first occurrences. -/
def NodeDiff.diffsList (nd : NodeDiff) : List ObjectDiff :=
  dedupDiffs ((nd.hierarchies.map ObjectDiffBatch.diffs).flatten) []

/-- NodeDiff.objs_to_sync: the non-empty object of every NEW diff in the
deduplicated diffs view.  For a genuine NEW diff get_obj is always some; the
impossible both-sides-absent case (on which Python would append None) is
dropped by filterMap. -/
def NodeDiff.objs_to_sync (nd : NodeDiff) : List SObj :=
  (nd.diffsList.filter (fun d => d.status = "NEW")).filterMap ObjectDiff.get_obj

/-- The scan inside NodeDiff._sort_hierarchies: the first diff of the batch whose
non-empty object (low side preferred) is a UserCode yields that object's id. -/
def batchUserCodeId (h : ObjectDiffBatch) : Option Nat :=
  h.diffs.findSome? (fun d =>
    match (match d.low_obj with | some o => some o | none => d.high_obj) with
    | some o => if o.kind = SKind.userCode then some o.id else none
    | none => none)

/-- NodeDiff._sort_hierarchies.  The loop splits batches into those owning a
UserCode (stored under the code id: grouped_by_usercode[obj.id] = hierarchy, a
single batch although the local annotation declares a list) and the rest.  The
subsequent hierarchy_group.sort(key=...) calls the list method sort on an
ObjectDiffBatch, which raises AttributeError at runtime; reaching that loop with
a non-empty group is therefore embedded as an error.  With no code-owned batch
the function returns the concatenation of the (empty) groups and the ungrouped
batches in their input order. -/
def sortStep (acc : List (Nat × ObjectDiffBatch) × List ObjectDiffBatch)
    (h : ObjectDiffBatch) : List (Nat × ObjectDiffBatch) × List ObjectDiffBatch :=
  match batchUserCodeId h with
  | some cid => (dictSet acc.1 cid h, acc.2)
  | none => (acc.1, acc.2 ++ [h])

def sortHierarchiesRes (hierarchies : List ObjectDiffBatch) :
    Except String (List ObjectDiffBatch) :=
  match hierarchies.foldl sortStep ([], []) with
  | ([], without) => Except.ok (([] : List (Nat × ObjectDiffBatch)).map Prod.snd ++ without)
  | (_, _) => Except.error "AttributeError: ObjectDiffBatch object has no sort method"

/-- ResolvedSyncState from diff_state.py. -/
structure ResolvedSyncState where
  create_objs : List SObj
  update_objs : List SObj
  delete_objs : List SObj
  new_permissions : List Nat
  alias' : String
  deriving DecidableEq, Repr

/-- ResolvedSyncState.add_cruds_from_diff.  decision names the side whose version
wins ("low" for sync_low_to_high, as resolve_widget.py maps LOW_TO_HIGH to
decision low); when the decision chose the other side, a DIFF appends the other
side's object to update_objs, a NEW appends the other side's object to
create_objs when this side lacks it and appends this side's object to
delete_objs when the other side lacks it, each append guarded by membership.
Branches whose Python counterpart would act on a diff with both sides absent
(impossible for diffs built by from_objects) leave the state unchanged. -/
def ResolvedSyncState.add_cruds_from_diff (s : ResolvedSyncState) (diff : ObjectDiff)
    (decision : String) : ResolvedSyncState :=
  if diff.status = "SAME" then s
  else
    let my_obj := if s.alias' = "low" then diff.low_obj else diff.high_obj
    let other_obj := if s.alias' = "high" then diff.low_obj else diff.high_obj
    if decision ≠ s.alias' then
      if diff.status = "DIFF" then
        match other_obj with
        | some o =>
          if o ∈ s.update_objs then s
          else { s with update_objs := s.update_objs ++ [o] }
        | none => s
      else if diff.status = "NEW" then
        match my_obj, other_obj with
        | none, some o =>
          if o ∈ s.create_objs then s
          else { s with create_objs := s.create_objs ++ [o] }
        | some m, none =>
          if m ∈ s.delete_objs then s
          else { s with delete_objs := s.delete_objs ++ [m] }
        | _, _ => s
      else s
    else s

/-- Modelled from the spec: permission propagation during resolution (spec
section 4.4; the driver in syft/client/syncing.py is not in the source tree and
nothing under src writes ResolvedSyncState.new_permissions).  When the decision
chose the other side, every grant present on the other side and absent on this
side is appended to new_permissions, checking already-present before appending as
the spec's idempotence requirement demands.  The guarded append loop first: -/
def permsFold (myPerms acc otherPerms : List Nat) : List Nat :=
  otherPerms.foldl (fun acc p => if p ∈ myPerms ∨ p ∈ acc then acc else acc ++ [p]) acc

/-- The spec-modelled permission propagation itself (see permsFold above). -/
def addPermsFromDiff (s : ResolvedSyncState) (diff : ObjectDiff)
    (decision : String) : ResolvedSyncState :=
  if decision ≠ s.alias' then
    let myPerms := if s.alias' = "low" then diff.low_permissions else diff.high_permissions
    let otherPerms := if s.alias' = "high" then diff.low_permissions else diff.high_permissions
    { s with new_permissions := permsFold myPerms s.new_permissions otherPerms }
  else s

/-- Processing of a single diff during resolution: the source
add_cruds_from_diff followed by the spec-modelled permission propagation. -/
def resolveStateOne (s : ResolvedSyncState) (d : ObjectDiff) (decision : String) :
    ResolvedSyncState :=
  addPermsFromDiff (s.add_cruds_from_diff d decision) d decision

/-- Modelled from the spec: the per-batch resolve driver (spec section 4.4; the
loop lives in syft/client/syncing.py, outside the source tree).  skip and ignore
leave both states unchanged; a sync decision applies every diff of the batch to
both alias states. -/
def resolveBatch (batch : ObjectDiffBatch) (decision : String)
    (low high : ResolvedSyncState) : ResolvedSyncState × ResolvedSyncState :=
  if decision = "skip" ∨ decision = "ignore" then (low, high)
  else
    (batch.diffs.foldl (fun s d => resolveStateOne s d decision) low,
     batch.diffs.foldl (fun s d => resolveStateOne s d decision) high)

/-- SyncState from sync_state.py, restricted to the fields the diff pipeline
reads: objects by uid, the dependency adjacency map, and per-object permission
lists. -/
structure SyncState where
  objects : List (Nat × SObj)
  dependencies : List (Nat × List Nat)
  permissions : List (Nat × List Nat)
  deriving DecidableEq, Repr

/-- NodeDiff._init_dependencies: union of both sides' dependency maps, keyed by
parent, values the union of both sides' child lists.  Python iterates sets of
keys and builds list(set | set) in unspecified order; the embedding keeps
first-occurrence order. -/
def initDependencies (low high : SyncState) : List (Nat × List Nat) :=
  (dedupNat (low.dependencies.map Prod.fst ++ high.dependencies.map Prod.fst)).map
    (fun parent =>
      (parent,
        dedupNat (((alookup low.dependencies parent).getD []) ++
          ((alookup high.dependencies parent).getD []))))

/-- The loop of NodeDiff.from_sync_state: one ObjectDiff per identity present
on either side, inserted under the diff's object_id.  A failing from_objects
(both sides absent, impossible for union keys) propagates as none. -/
def buildDiffPairs (low high : SyncState) : List Nat → Option (List (Nat × ObjectDiff))
  | [] => some []
  | k :: ks =>
    match ObjectDiff.from_objects (alookup low.objects k) (alookup high.objects k)
        ((alookup low.permissions k).getD []) ((alookup high.permissions k).getD []) with
    | none => none
    | some d =>
      match buildDiffPairs low high ks with
      | none => none
      | some rest => some ((d.object_id, d) :: rest)

/-- NodeDiff.from_sync_state as a whole: the loop above over the union of both
sides' object keys, then _init_dependencies. -/
def NodeDiff.from_sync_state (low high : SyncState) : Option NodeDiff :=
  (buildDiffPairs low high
      (dedupNat (low.objects.map Prod.fst ++ high.objects.map Prod.fst))).map
    (fun pairs => { obj_uid_to_diff := pairs, dependencies := initDependencies low high })

/-- A diff whose two sides hold the same object (status SAME). -/
def sameDiff (o : SObj) : ObjectDiff :=
  { low_obj := some o, high_obj := some o, low_permissions := [], high_permissions := [],
    obj_kind := o.kind, diff_list := [] }

/-- A diff for an object present only on the low side (status NEW). -/
def newLowDiff (o : SObj) : ObjectDiff :=
  { low_obj := some o, high_obj := none, low_permissions := [], high_permissions := [],
    obj_kind := o.kind, diff_list := [] }

/-- A diff for an object present only on the high side (status NEW). -/
def newHighDiff (o : SObj) : ObjectDiff :=
  { low_obj := none, high_obj := some o, low_permissions := [], high_permissions := [],
    obj_kind := o.kind, diff_list := [] }

/-- An empty ResolvedSyncState for a given alias. -/
def emptyState (a : String) : ResolvedSyncState :=
  { create_objs := [], update_objs := [], delete_objs := [], new_permissions := [], alias' := a }

/-- The cyclic two-element input of spec property 5: diffs A and B with
dependencies A to B and B to A. -/
def cycND : NodeDiff :=
  { obj_uid_to_diff := [(0, sameDiff ⟨0, SKind.request, 0⟩), (1, sameDiff ⟨1, SKind.job, 0⟩)],
    dependencies := [(0, [1]), (1, [0])] }

/-- A diamond: parent 0 with children 1 and 2, both of which depend on the same
deeper descendant 3 (3 is not itself a child of 0). -/
def diamondND : NodeDiff :=
  { obj_uid_to_diff :=
      [(0, sameDiff ⟨0, SKind.request, 0⟩), (1, sameDiff ⟨1, SKind.userCode, 0⟩),
       (2, sameDiff ⟨2, SKind.job, 0⟩), (3, sameDiff ⟨3, SKind.actionObject, 0⟩)],
    dependencies := [(0, [1, 2]), (1, [3]), (2, [3])] }

/-- The example from the source comment in _build_hierarchy_helper:
ExecutionOutput 0 with children Job 1 and Result 2, where the Job also depends
on the Result (the shared descendant is itself a direct child of the parent). -/
def eoND : NodeDiff :=
  { obj_uid_to_diff :=
      [(0, sameDiff ⟨0, SKind.executionOutput, 0⟩), (1, sameDiff ⟨1, SKind.job, 0⟩),
       (2, sameDiff ⟨2, SKind.actionObject, 0⟩)],
    dependencies := [(0, [1, 2]), (1, [2])] }

/-- Low-side snapshot with objects 0, 1, 2 where 2 is a shared dependency of the
two roots 0 and 1. -/
def lowShared : SyncState :=
  { objects := [(0, ⟨0, SKind.request, 0⟩), (1, ⟨1, SKind.request, 1⟩),
                (2, ⟨2, SKind.actionObject, 5⟩)],
    dependencies := [(0, [2]), (1, [2])],
    permissions := [] }

/-- High-side snapshot lacking object 2 (so 2 is present in exactly one
snapshot and its diff is NEW). -/
def highShared : SyncState :=
  { objects := [(0, ⟨0, SKind.request, 0⟩), (1, ⟨1, SKind.request, 1⟩)],
    dependencies := [(0, [2]), (1, [2])],
    permissions := [] }

/-- A single-diff batch whose object exists only on the high side. -/
def cexHighOnlyBatch : ObjectDiffBatch :=
  mkObjectDiffBatch [newHighDiff ⟨7, SKind.job, 3⟩] [0] [(7, [])]

/-- A batch with no UserCode anywhere, root identity 5. -/
def b5 : ObjectDiffBatch :=
  mkObjectDiffBatch [sameDiff ⟨5, SKind.request, 0⟩, newLowDiff ⟨6, SKind.job, 0⟩] [0, 1]
    [(5, [6]), (6, [])]

/-- A batch with no UserCode anywhere, root identity 3. -/
def b3 : ObjectDiffBatch :=
  mkObjectDiffBatch [newLowDiff ⟨3, SKind.request, 1⟩] [0] [(3, [])]

/-- A batch owning a UserCode entity (identity 9). -/
def bUserCode : ObjectDiffBatch :=
  mkObjectDiffBatch [sameDiff ⟨9, SKind.userCode, 0⟩] [0] [(9, [])]

/-- A diff carrying a low-side permission grant absent on the high side. -/
def permDiff : ObjectDiff :=
  { low_obj := some ⟨4, SKind.job, 0⟩, high_obj := some ⟨4, SKind.job, 1⟩,
    low_permissions := [1], high_permissions := [2], obj_kind := SKind.job,
    diff_list := [⟨"val", 0, 1⟩] }

/-- A one-diff batch around permDiff. -/
def permBatch : ObjectDiffBatch :=
  mkObjectDiffBatch [permDiff] [0] [(4, [])]

/-- An object map is well keyed when every entry maps a uid to an object whose
id field is that uid (the invariant SyncState.add_objects maintains:
objects[obj.id] = obj). -/
abbrev WellKeyed (m : List (Nat × SObj)) : Prop :=
  ∀ p ∈ m, (p.2).id = p.1

/-- Componentwise membership inclusion of resolved states (same alias, every
entry of each list also in the corresponding list of the other state). -/
def rssLe (a b : ResolvedSyncState) : Prop :=
  a.alias' = b.alias'
  ∧ (∀ x ∈ a.create_objs, x ∈ b.create_objs)
  ∧ (∀ x ∈ a.update_objs, x ∈ b.update_objs)
  ∧ (∀ x ∈ a.delete_objs, x ∈ b.delete_objs)
  ∧ (∀ p ∈ a.new_permissions, p ∈ b.new_permissions)

theorem dedupDiffs_not_mem_ids :
    ∀ (l : List ObjectDiff) (ids : List Nat) (x : Nat),
      x ∈ (dedupDiffs l ids).map ObjectDiff.object_id → x ∉ ids := by
  intro l
  induction l with
  | nil => intro ids x h; simp [dedupDiffs] at h
  | cons d rest ih =>
    intro ids x h
    simp only [dedupDiffs] at h
    split at h
    · exact ih ids x h
    · rename_i hni
      simp only [List.map_cons, List.mem_cons] at h
      rcases h with h | h
      · subst h; exact hni
      · intro hx
        exact ih (d.object_id :: ids) x h (List.mem_cons_of_mem _ hx)

theorem dedupDiffs_nodup :
    ∀ (l : List ObjectDiff) (ids : List Nat),
      ((dedupDiffs l ids).map ObjectDiff.object_id).Nodup := by
  intro l
  induction l with
  | nil => intro ids; simp [dedupDiffs]
  | cons d rest ih =>
    intro ids
    simp only [dedupDiffs]
    split
    · exact ih ids
    · simp only [List.map_cons, List.nodup_cons]
      constructor
      · intro hmem
        exact dedupDiffs_not_mem_ids rest (d.object_id :: ids) d.object_id hmem
          (List.mem_cons_self _ _)
      · exact ih (d.object_id :: ids)

theorem get_obj_id (d : ObjectDiff) (o : SObj) (h : d.get_obj = some o) :
    o.id = d.object_id := by
  unfold ObjectDiff.get_obj at h
  unfold ObjectDiff.object_id
  split at h
  · cases hl : d.low_obj with
    | some a => rw [hl] at h; simp at h; subst h; simp [hl]
    | none =>
      rw [hl] at h
      simp only [hl]
      cases hh : d.high_obj with
      | some b => rw [hh] at h; simp at h; subst h; simp
      | none => rw [hh] at h; simp at h
  · simp at h

theorem mem_filterMap_ids (P : ObjectDiff → Bool) :
    ∀ (l : List ObjectDiff) (x : Nat),
      x ∈ ((l.filter P).filterMap ObjectDiff.get_obj).map SObj.id →
      x ∈ l.map ObjectDiff.object_id := by
  intro l
  induction l with
  | nil => intro x h; simp at h
  | cons d rest ih =>
    intro x h
    simp only [List.filter_cons] at h
    by_cases hP : P d
    · simp only [hP, if_pos] at h
      simp only [List.filterMap_cons] at h
      cases hg : d.get_obj with
      | none => rw [hg] at h; simp only [List.map_cons, List.mem_cons]; right; exact ih x h
      | some o =>
        rw [hg] at h
        simp only [List.map_cons, List.mem_cons] at h ⊢
        rcases h with h | h
        · left; rw [h]; exact (get_obj_id d o hg).symm ▸ rfl
        · right; exact ih x h
    · simp only [hP] at h
      simp only [Bool.false_eq_true, if_false] at h
      simp only [List.map_cons, List.mem_cons]
      right; exact ih x h

theorem nodup_filterMap_ids (P : ObjectDiff → Bool) :
    ∀ (l : List ObjectDiff),
      (l.map ObjectDiff.object_id).Nodup →
      (((l.filter P).filterMap ObjectDiff.get_obj).map SObj.id).Nodup := by
  intro l
  induction l with
  | nil => intro _; simp
  | cons d rest ih =>
    intro hnd
    simp only [List.map_cons, List.nodup_cons] at hnd
    simp only [List.filter_cons]
    by_cases hP : P d
    · simp only [hP, if_pos, List.filterMap_cons]
      cases hg : d.get_obj with
      | none => exact ih hnd.2
      | some o =>
        simp only [List.map_cons, List.nodup_cons]
        refine ⟨?_, ih hnd.2⟩
        intro hmem
        have hx := mem_filterMap_ids P rest o.id hmem
        rw [get_obj_id d o hg] at hx
        exact hnd.1 hx
    · simp only [hP, Bool.false_eq_true, if_false]
      exact ih hnd.2

/-- C10: for every NodeDiff, the flattened diffs view keeps each object identity
at most once, and the objects-needing-sync view never returns two entities with
the same identity, even when an identity occurs in several hierarchies. -/
theorem C10_diffs_dedup (nd : NodeDiff) :
    ((nd.diffsList).map ObjectDiff.object_id).Nodup
    ∧ ((nd.objs_to_sync).map SObj.id).Nodup := by
  constructor
  · exact dedupDiffs_nodup _ []
  · exact nodup_filterMap_ids _ _ (dedupDiffs_nodup _ [])

/-- C8: diff construction fails exactly when both sides are absent; when exactly
one side is present it succeeds with status NEW and an empty attribute-diff
list. -/
theorem C8_from_objects (low_obj high_obj : Option SObj)
    (lp hp : List Nat) :
    (ObjectDiff.from_objects low_obj high_obj lp hp = none ↔
      low_obj = none ∧ high_obj = none)
    ∧ (low_obj.isSome ≠ high_obj.isSome →
        ∃ d, ObjectDiff.from_objects low_obj high_obj lp hp = some d
          ∧ d.status = "NEW" ∧ d.diff_list = []) := by
  constructor
  · cases low_obj with
    | none => cases high_obj with
      | none => simp [ObjectDiff.from_objects]
      | some b => simp [ObjectDiff.from_objects]
    | some a => cases high_obj with
      | none => simp [ObjectDiff.from_objects]
      | some b => simp [ObjectDiff.from_objects]
  · intro hxor
    cases low_obj with
    | none => cases high_obj with
      | none => simp at hxor
      | some b =>
        refine ⟨_, rfl, ?_, rfl⟩
        simp [ObjectDiff.status]
    | some a => cases high_obj with
      | none =>
        refine ⟨_, rfl, ?_, rfl⟩
        simp [ObjectDiff.status]
      | some b => simp at hxor

/-- Witness for C8 at a concrete input: a high-side-only object. -/
theorem C8_from_objects_witness :
    (none : Option SObj).isSome ≠ (some (⟨1, SKind.job, 0⟩ : SObj)).isSome
    ∧ ∃ d, ObjectDiff.from_objects none (some ⟨1, SKind.job, 0⟩) [] [] = some d
        ∧ d.status = "NEW" ∧ d.diff_list = [] := by
  refine ⟨by decide, ?_⟩
  exact (C8_from_objects none (some ⟨1, SKind.job, 0⟩) [] []).2 (by decide)

/-- C1 counterexample: a batch holding one diff whose object exists only on the
high side, resolved with sync_low_to_high (decision low), does not leave the
high-alias state unchanged: the object is appended to its delete list. -/
theorem C1_counterexample :
    (resolveBatch cexHighOnlyBatch "low" (emptyState "low") (emptyState "high")).2.delete_objs
      = [⟨7, SKind.job, 3⟩]
    ∧ ([⟨7, SKind.job, 3⟩] : List SObj) ≠ [] := by
  constructor
  · rfl
  · simp

/-- C1 amended: for a diff with status NEW where only the high side has the
entity, sync_low_to_high (decision low) appends the high entity to the
high-alias delete list (unless already present) and leaves the create and
update lists unchanged. -/
theorem C1_amended_deletes (s : ResolvedSyncState) (diff : ObjectDiff) (o : SObj)
    (halias : s.alias' = "high") (hlow : diff.low_obj = none)
    (hhigh : diff.high_obj = some o) :
    s.add_cruds_from_diff diff "low" =
      (if o ∈ s.delete_objs then s else { s with delete_objs := s.delete_objs ++ [o] }) := by
  have hst : diff.status = "NEW" := by
    unfold ObjectDiff.status
    rw [hlow]
    simp
  unfold ResolvedSyncState.add_cruds_from_diff
  rw [hst, halias, hlow, hhigh]
  simp

/-- Witness for C1 amended at a concrete input. -/
theorem C1_amended_deletes_witness :
    (emptyState "high").alias' = "high"
    ∧ (newHighDiff ⟨7, SKind.job, 3⟩).low_obj = none
    ∧ (newHighDiff ⟨7, SKind.job, 3⟩).high_obj = some ⟨7, SKind.job, 3⟩
    ∧ (emptyState "high").add_cruds_from_diff (newHighDiff ⟨7, SKind.job, 3⟩) "low" =
        (if (⟨7, SKind.job, 3⟩ : SObj) ∈ (emptyState "high").delete_objs then emptyState "high"
         else { emptyState "high" with
                  delete_objs := (emptyState "high").delete_objs ++ [⟨7, SKind.job, 3⟩] }) := by
  refine ⟨rfl, rfl, rfl, ?_⟩
  exact C1_amended_deletes (emptyState "high") (newHighDiff ⟨7, SKind.job, 3⟩)
    ⟨7, SKind.job, 3⟩ rfl rfl rfl

/-- C5: resolving any batch with decision skip or ignore leaves both resolved
states unchanged. -/
theorem C5_skip_ignore (batch : ObjectDiffBatch) (decision : String)
    (low high : ResolvedSyncState)
    (h : decision = "skip" ∨ decision = "ignore") :
    resolveBatch batch decision low high = (low, high) := by
  unfold resolveBatch
  rw [if_pos h]

/-- Witness for C5 at a concrete input. -/
theorem C5_skip_ignore_witness :
    (("skip" : String) = "skip" ∨ ("skip" : String) = "ignore")
    ∧ resolveBatch permBatch "skip" (emptyState "low") (emptyState "high")
        = (emptyState "low", emptyState "high") := by
  refine ⟨Or.inl rfl, ?_⟩
  exact C5_skip_ignore permBatch "skip" (emptyState "low") (emptyState "high") (Or.inl rfl)

theorem alookup_mem {α : Type} (m : List (Nat × α)) (k : Nat) (v : α)
    (h : alookup m k = some v) : (k, v) ∈ m := by
  unfold alookup at h
  cases hf : m.find? (fun p => p.1 = k) with
  | none => rw [hf] at h; simp at h
  | some p =>
    rw [hf] at h
    simp only [Option.map_some'] at h
    have hp := List.find?_some hf
    have hm := List.mem_of_find?_eq_some hf
    have hk : p.1 = k := by simpa using hp
    have hv : p.2 = v := by simpa using h
    have : p = (k, v) := by
      cases p
      simp_all
    rw [this] at hm
    exact hm

theorem key_mem_depUniverse (deps : List (Nat × List Nat)) (uid : Nat) (ds : List Nat)
    (h : alookup deps uid = some ds) : uid ∈ depUniverse deps := by
  have hm := alookup_mem deps uid ds h
  unfold depUniverse
  apply List.mem_append_left
  exact List.mem_map_of_mem Prod.fst hm

theorem val_mem_depUniverse (deps : List (Nat × List Nat)) (uid : Nat) (ds : List Nat)
    (d : Nat) (h : alookup deps uid = some ds) (hd : d ∈ ds) :
    d ∈ depUniverse deps := by
  have hm := alookup_mem deps uid ds h
  unfold depUniverse
  apply List.mem_append_right
  rw [List.mem_flatten]
  exact ⟨ds, List.mem_map_of_mem Prod.snd hm, hd⟩

theorem remCard_mono (deps : List (Nat × List Nat)) (v w : List Nat)
    (h : ∀ x ∈ v, x ∈ w) : remCard deps w ≤ remCard deps v := by
  unfold remCard
  apply Finset.card_le_card
  apply Finset.sdiff_subset_sdiff (le_refl _)
  intro x hx
  rw [List.mem_toFinset] at hx ⊢
  exact h x hx

theorem remCard_pos (deps : List (Nat × List Nat)) (v : List Nat) (d : Nat)
    (hU : d ∈ depUniverse deps) (hv : d ∉ v) : 1 ≤ remCard deps v := by
  unfold remCard
  rw [Nat.one_le_iff_ne_zero, ← Nat.pos_iff_ne_zero, Finset.card_pos]
  exact ⟨d, Finset.mem_sdiff.mpr ⟨List.mem_toFinset.mpr hU, fun hc => hv (List.mem_toFinset.mp hc)⟩⟩

theorem remCard_cons (deps : List (Nat × List Nat)) (uid : Nat) (v : List Nat)
    (hU : uid ∈ depUniverse deps) (hv : uid ∉ v) :
    remCard deps (uid :: v) + 1 = remCard deps v := by
  have hpos : 1 ≤ remCard deps v := remCard_pos deps v uid hU hv
  unfold remCard at hpos ⊢
  rw [List.toFinset_cons, Finset.sdiff_insert, Finset.card_erase_of_mem]
  · omega
  · exact Finset.mem_sdiff.mpr ⟨List.mem_toFinset.mpr hU, fun hc => hv (List.mem_toFinset.mp hc)⟩

theorem goChildrenSome (deps : List (Nat × List Nat)) (f : Nat)
    (hrec : ∀ (uid level : Nat) (visited : List Nat),
      remCard deps visited ≤ f → 1 ≤ f →
      (buildHelperOpt deps f uid level visited).isSome) :
    ∀ (l ds : List Nat) (level : Nat) (visited : List Nat),
      (∀ d ∈ l, d ∈ depUniverse deps) → remCard deps visited ≤ f →
      (goChildren (buildHelperOpt deps f) l ds level visited).isSome := by
  intro l
  induction l with
  | nil => intro ds level visited _ _; simp [goChildren]
  | cons d rest ih =>
    intro ds level visited hU hm
    simp only [goChildren]
    split
    · exact ih ds level visited (fun x hx => hU x (List.mem_cons_of_mem _ hx)) hm
    · rename_i hdv
      have hdU : d ∈ depUniverse deps := hU d (List.mem_cons_self _ _)
      have hWsub : ∀ x ∈ visited, x ∈ visited ++ ds.filter (fun x => x != d) :=
        fun x hx => List.mem_append_left _ hx
      have hWm : remCard deps (visited ++ ds.filter (fun x => x != d)) ≤ remCard deps visited :=
        remCard_mono deps visited _ hWsub
      have hdW : d ∉ visited ++ ds.filter (fun x => x != d) := by
        intro hx
        rcases List.mem_append.mp hx with h | h
        · exact hdv h
        · have := List.of_mem_filter h
          simp at this
      have h1 : 1 ≤ remCard deps (visited ++ ds.filter (fun x => x != d)) :=
        remCard_pos deps _ d hdU hdW
      have hrecd := hrec d (level + 1) (visited ++ ds.filter (fun x => x != d))
        (le_trans hWm hm) (le_trans h1 (le_trans hWm hm))
      cases hb : buildHelperOpt deps f d (level + 1) (visited ++ ds.filter (fun x => x != d)) with
      | none => rw [hb] at hrecd; simp at hrecd
      | some sub =>
        have hrest := ih ds level visited (fun x hx => hU x (List.mem_cons_of_mem _ hx)) hm
        cases hg : goChildren (buildHelperOpt deps f) rest ds level visited with
        | none => rw [hg] at hrest; simp at hrest
        | some r2 => simp

theorem buildHelperSome (deps : List (Nat × List Nat)) :
    ∀ (f uid level : Nat) (visited : List Nat),
      remCard deps visited ≤ f → 1 ≤ f →
      (buildHelperOpt deps f uid level visited).isSome := by
  intro f
  induction f using Nat.strong_induction_on with
  | _ f ih =>
    intro uid level visited hm h1
    match f, h1 with
    | g + 1, _ =>
      simp only [buildHelperOpt]
      split
      · simp
      · rename_i hnv
        cases hl : alookup deps uid with
        | none => simp
        | some ds =>
          have huU : uid ∈ depUniverse deps := key_mem_depUniverse deps uid ds hl
          have hme : remCard deps (uid :: visited) + 1 = remCard deps visited :=
            remCard_cons deps uid visited huU hnv
          have hrecg : ∀ (uid' level' : Nat) (visited' : List Nat),
              remCard deps visited' ≤ g → 1 ≤ g →
              (buildHelperOpt deps g uid' level' visited').isSome :=
            fun a b c hx hy => ih g (Nat.lt_succ_self g) a b c hx hy
          have hgoal := goChildrenSome deps g hrecg ds ds level (uid :: visited)
            (fun d hd => val_mem_depUniverse deps uid ds d hl hd) (by omega)
          cases hg : goChildren (buildHelperOpt deps g) ds ds level (uid :: visited) with
          | none => rw [hg] at hgoal; simp at hgoal
          | some rest => simp [hg]

/-- C2 counterexample: on diffs A=0, B=1 with dependencies A to B and B to A,
batch construction terminates but produces zero batches (both identities are
children somewhere, so there is no root), not one batch holding A and B. -/
theorem C2_counterexample :
    cycND.hierarchies = [] ∧ cycND.hierarchies.length ≠ 1 := by
  constructor
  · rfl
  · intro h
    rw [show cycND.hierarchies = [] from rfl] at h
    simp at h

/-- C2 amended: the hierarchy builder terminates on every input, cyclic ones
included, because the recursion depth is bounded: with any fuel exceeding the
number of unvisited uids of the dependency universe the helper never runs out
(so the unbounded Python recursion is finite); on the two-element cycle with
both diffs present the builder returns no batch at all (no root exists, so A
and B appear in no batch). -/
theorem C2_cycle_terminates :
    (∀ (deps : List (Nat × List Nat)) (f uid level : Nat) (visited : List Nat),
        remCard deps visited < f → (buildHelperOpt deps f uid level visited).isSome)
    ∧ cycND.hierarchies = [] := by
  refine ⟨?_, rfl⟩
  intro deps f uid level visited h
  exact buildHelperSome deps f uid level visited (by omega) (by omega)

/-- Witness for C2 amended at a concrete input: the cyclic dependency map with
fuel 3 (its universe has two uids). -/
theorem C2_cycle_terminates_witness :
    remCard cycND.dependencies [] < 3
    ∧ (buildHelperOpt cycND.dependencies 3 0 0 []).isSome := by
  refine ⟨by decide, ?_⟩
  exact C2_cycle_terminates.1 cycND.dependencies 3 0 0 [] (by decide)

theorem goChildren_not_visited (deps : List (Nat × List Nat)) (f : Nat)
    (hrec : ∀ (uid level : Nat) (visited : List Nat) (res : List (Nat × Nat)),
      buildHelperOpt deps f uid level visited = some res → ∀ p ∈ res, p.1 ∉ visited) :
    ∀ (l ds : List Nat) (level : Nat) (visited : List Nat) (res : List (Nat × Nat)),
      goChildren (buildHelperOpt deps f) l ds level visited = some res →
      ∀ p ∈ res, p.1 ∉ visited := by
  intro l
  induction l with
  | nil => intro ds level visited res h p hp; simp [goChildren] at h; subst h; simp at hp
  | cons d rest ih =>
    intro ds level visited res h p hp
    simp only [goChildren] at h
    split at h
    · exact ih ds level visited res h p hp
    · cases hb : buildHelperOpt deps f d (level + 1) (visited ++ ds.filter (fun x => x != d)) with
      | none => rw [hb] at h; simp at h
      | some sub =>
        rw [hb] at h
        cases hg : goChildren (buildHelperOpt deps f) rest ds level visited with
        | none => rw [hg] at h; simp at h
        | some r2 =>
          rw [hg] at h
          simp only [Option.some.injEq] at h
          subst h
          rcases List.mem_append.mp hp with hsub | hr2
          · intro hv
            exact hrec d (level + 1) (visited ++ ds.filter (fun x => x != d)) sub hb p hsub
              (List.mem_append_left _ hv)
          · exact ih ds level visited r2 hg p hr2

theorem buildHelper_not_visited (deps : List (Nat × List Nat)) :
    ∀ (f uid level : Nat) (visited : List Nat) (res : List (Nat × Nat)),
      buildHelperOpt deps f uid level visited = some res → ∀ p ∈ res, p.1 ∉ visited := by
  intro f
  induction f with
  | zero => intro uid level visited res h; simp [buildHelperOpt] at h
  | succ g ih =>
    intro uid level visited res h p hp
    simp only [buildHelperOpt] at h
    split at h
    · simp only [Option.some.injEq] at h; subst h; simp at hp
    · rename_i hnv
      split at h
      · simp only [Option.some.injEq] at h
        subst h
        simp only [List.mem_singleton] at hp
        subst hp
        exact hnv
      · rename_i ds hl
        split at h
        · exact absurd h (by simp)
        · rename_i rest hg
          simp only [Option.some.injEq] at h
          subst h
          rcases List.mem_cons.mp hp with hhead | htail
          · subst hhead; exact hnv
          · intro hv
            exact goChildren_not_visited deps g ih ds ds level (uid :: visited) rest hg p htail
              (List.mem_cons_of_mem _ hv)

/-- C3 counterexample: in the diamond (0 with children 1 and 2, both depending
on descendant 3) the single batch holds identity 3 twice, once under each
child, refuting both halves of the claim. -/
theorem C3_counterexample :
    diamondND.hierarchies.map (fun b => b.diffs.map ObjectDiff.object_id) = [[0, 1, 3, 2, 3]]
    ∧ diamondND.hierarchies.map ObjectDiffBatch.hierarchy_levels = [[0, 1, 2, 1, 2]]
    ∧ ¬ (∀ b ∈ diamondND.hierarchies, (b.diffs.map ObjectDiff.object_id).Nodup) := by
  refine ⟨rfl, rfl, ?_⟩
  decide

/-- C3 amended: a batch can hold the same identity twice when a shared
descendant is reached through two different children at deeper levels. What the
sibling-exclusion rule does guarantee is that a recursive branch never
re-attaches an identity of its call's visited set, in particular never a
sibling passed in the exclusion set; hence a shared descendant that is itself a
direct child of the parent is attached exactly once, directly under the parent,
as in the documented ExecutionOutput, Job, Result example. -/
theorem C3_amended_sibling_rule :
    (∀ (deps : List (Nat × List Nat)) (f uid level : Nat) (visited : List Nat)
        (res : List (Nat × Nat)),
        buildHelperOpt deps f uid level visited = some res → ∀ p ∈ res, p.1 ∉ visited)
    ∧ eoND.hierarchies.map (fun b => b.diffs.map ObjectDiff.object_id) = [[0, 1, 2]]
    ∧ eoND.hierarchies.map ObjectDiffBatch.hierarchy_levels = [[0, 1, 1]]
    ∧ (∀ b ∈ eoND.hierarchies, (b.diffs.map ObjectDiff.object_id).Nodup) := by
  refine ⟨buildHelper_not_visited, rfl, rfl, ?_⟩
  decide

/-- Witness for C3 amended at a concrete input: the ExecutionOutput example run
with sufficient fuel and an initially visited uid 9, whose result avoids 9. -/
theorem C3_amended_sibling_rule_witness :
    buildHelperOpt eoND.dependencies 4 0 0 [9] = some [(0, 0), (1, 1), (2, 1)]
    ∧ ∀ p ∈ [((0 : Nat), (0 : Nat)), (1, 1), (2, 1)], p.1 ∉ [(9 : Nat)] := by
  refine ⟨by decide, ?_⟩
  exact C3_amended_sibling_rule.1 eoND.dependencies 4 0 0 [9] [(0, 0), (1, 1), (2, 1)]
    (by decide)

theorem dedupNatAux_mem :
    ∀ (l seen : List Nat) (x : Nat), x ∈ l → x ∉ seen → x ∈ dedupNatAux l seen := by
  intro l
  induction l with
  | nil => intro seen x hx; simp at hx
  | cons y ys ih =>
    intro seen x hx hs
    simp only [dedupNatAux]
    rcases List.mem_cons.mp hx with h | h
    · subst h
      rw [if_neg hs]
      exact List.mem_cons_self _ _
    · by_cases hy : y ∈ seen
      · rw [if_pos hy]
        exact ih seen x h hs
      · rw [if_neg hy]
        by_cases hxy : x = y
        · subst hxy; exact List.mem_cons_self _ _
        · exact List.mem_cons_of_mem _
            (ih (y :: seen) x h (by simp [hxy, hs]))

theorem mem_dedupNat (l : List Nat) (x : Nat) (hx : x ∈ l) : x ∈ dedupNat l :=
  dedupNatAux_mem l [] x hx (by simp)

theorem alookup_mem_keys {α : Type} (m : List (Nat × α)) (i : Nat) (v : α)
    (h : alookup m i = some v) : i ∈ m.map Prod.fst := by
  have := alookup_mem m i v h
  exact List.mem_map_of_mem Prod.fst this

theorem from_objects_fields (a b : Option SObj) (lp hp : List Nat) (d : ObjectDiff)
    (h : ObjectDiff.from_objects a b lp hp = some d) :
    d.low_obj = a ∧ d.high_obj = b := by
  cases a with
  | none => cases b with
    | none => simp [ObjectDiff.from_objects] at h
    | some y => simp [ObjectDiff.from_objects] at h; subst h; exact ⟨rfl, rfl⟩
  | some x => cases b with
    | none => simp [ObjectDiff.from_objects] at h; subst h; exact ⟨rfl, rfl⟩
    | some y => simp [ObjectDiff.from_objects] at h; subst h; exact ⟨rfl, rfl⟩

theorem wellKeyed_alookup (m : List (Nat × SObj)) (i : Nat) (o : SObj)
    (hwk : WellKeyed m) (h : alookup m i = some o) : o.id = i :=
  hwk (i, o) (alookup_mem m i o h)

theorem buildDiffPairs_lookup (low high : SyncState)
    (hwl : WellKeyed low.objects) (hwh : WellKeyed high.objects) :
    ∀ (ks : List Nat) (pairs : List (Nat × ObjectDiff)),
      buildDiffPairs low high ks = some pairs →
      ∀ i ∈ ks, ∃ d, alookup pairs i = some d
        ∧ d.low_obj = alookup low.objects i ∧ d.high_obj = alookup high.objects i := by
  intro ks
  induction ks with
  | nil => intro pairs _ i hi; simp at hi
  | cons k rest ih =>
    intro pairs h i hi
    simp only [buildDiffPairs] at h
    split at h
    · exact absurd h (by simp)
    · rename_i d hf
      split at h
      · exact absurd h (by simp)
      · rename_i tail ht
        simp only [Option.some.injEq] at h
        subst h
        have hfields := from_objects_fields _ _ _ _ d hf
        have hkey : d.object_id = k := by
          unfold ObjectDiff.object_id
          cases hlo : d.low_obj with
          | some o =>
            rw [hfields.1] at hlo
            exact wellKeyed_alookup low.objects k o hwl hlo
          | none =>
            cases hho : d.high_obj with
            | some o =>
              rw [hfields.2] at hho
              exact wellKeyed_alookup high.objects k o hwh hho
            | none =>
              rw [hlo] at hfields
              rw [hho] at hfields
              rw [← hfields.1, ← hfields.2] at hf
              simp [ObjectDiff.from_objects] at hf
        rcases List.mem_cons.mp hi with hik | hirest
        · subst hik
          refine ⟨d, ?_, hfields.1, hfields.2⟩
          unfold alookup
          rw [List.find?_cons_of_pos _ (by simp [hkey])]
          rfl
        · by_cases hik : i = k
          · subst hik
            refine ⟨d, ?_, hfields.1, hfields.2⟩
            unfold alookup
            rw [List.find?_cons_of_pos _ (by simp [hkey])]
            rfl
          · obtain ⟨d2, hl2, hlo2, hho2⟩ := ih tail ht i hirest
            refine ⟨d2, ?_, hlo2, hho2⟩
            unfold alookup at hl2 ⊢
            rw [List.find?_cons_of_neg _ (by simp [hkey]; omega)]
            exact hl2

/-- C4 amended: for every pair of well-keyed snapshots and every identity
present in exactly one of them, the computed diff has status NEW; but such an
identity can appear in two different batches (shared dependencies are expanded
from every root; only the flattened diffs view deduplicates), shown on the
concrete two-root snapshot pair where identity 2 exists only on the low side
and is a dependency of both roots. -/
theorem C4_new_status :
    (∀ (low high : SyncState) (nd : NodeDiff) (i : Nat),
        NodeDiff.from_sync_state low high = some nd →
        WellKeyed low.objects → WellKeyed high.objects →
        (alookup low.objects i).isSome ≠ (alookup high.objects i).isSome →
        ∃ d, alookup nd.obj_uid_to_diff i = some d ∧ d.status = "NEW")
    ∧ (NodeDiff.from_sync_state lowShared highShared).map
        (fun nd => nd.hierarchies.map (fun b => b.diffs.map ObjectDiff.object_id))
        = some [[0, 2], [1, 2]] := by
  constructor
  · intro low high nd i hfs hwl hwh hxor
    have hkeys : i ∈ dedupNat (low.objects.map Prod.fst ++ high.objects.map Prod.fst) := by
      apply mem_dedupNat
      cases hlo : alookup low.objects i with
      | some o => exact List.mem_append_left _ (alookup_mem_keys _ _ _ hlo)
      | none =>
        cases hho : alookup high.objects i with
        | some o => exact List.mem_append_right _ (alookup_mem_keys _ _ _ hho)
        | none => rw [hlo, hho] at hxor; simp at hxor
    unfold NodeDiff.from_sync_state at hfs
    cases hbp : buildDiffPairs low high
        (dedupNat (low.objects.map Prod.fst ++ high.objects.map Prod.fst)) with
    | none => rw [hbp] at hfs; simp at hfs
    | some pairs =>
      rw [hbp] at hfs
      simp only [Option.map_some', Option.some.injEq] at hfs
      obtain ⟨d, hld, hlo, hho⟩ := buildDiffPairs_lookup low high hwl hwh _ pairs hbp i hkeys
      refine ⟨d, ?_, ?_⟩
      · rw [← hfs]; exact hld
      · unfold ObjectDiff.status
        cases hl : alookup low.objects i with
        | none =>
          rw [hl] at hlo
          rw [if_pos (Or.inl (by rw [hlo]; rfl))]
        | some o =>
          cases hh : alookup high.objects i with
          | none =>
            rw [hh] at hho
            rw [if_pos (Or.inr (by rw [hho]; rfl))]
          | some o2 => rw [hl, hh] at hxor; simp at hxor
  · rfl

/-- Witness for C4 amended at a concrete input: identity 2 exists only in the
low snapshot, and its diff in the computed NodeDiff has status NEW. -/
theorem C4_new_status_witness :
    WellKeyed lowShared.objects ∧ WellKeyed highShared.objects
    ∧ (alookup lowShared.objects 2).isSome ≠ (alookup highShared.objects 2).isSome
    ∧ ∃ d, alookup ((NodeDiff.from_sync_state lowShared highShared).getD
          ⟨[], []⟩).obj_uid_to_diff 2 = some d ∧ d.status = "NEW" := by
  refine ⟨by decide, by decide, by decide, ?_⟩
  exact C4_new_status.1 lowShared highShared _ 2 rfl (by decide) (by decide) (by decide)

/-- C4 counterexample: identity 2 is present in exactly one snapshot, yet it
appears in both of the two distinct batches computed from the pair. -/
theorem C4_counterexample :
    (alookup lowShared.objects 2).isSome ≠ (alookup highShared.objects 2).isSome
    ∧ (NodeDiff.from_sync_state lowShared highShared).map
        (fun nd => nd.hierarchies.map (fun b => b.diffs.map ObjectDiff.object_id))
        = some [[0, 2], [1, 2]]
    ∧ (2 ∈ ([0, 2] : List Nat) ∧ 2 ∈ ([1, 2] : List Nat) ∧ ([0, 2] : List Nat) ≠ [1, 2]) := by
  exact ⟨by decide, rfl, by decide⟩

theorem dictSet_ne_nil {α : Type} (m : List (Nat × α)) (k : Nat) (v : α) :
    dictSet m k v ≠ [] := by
  unfold dictSet
  split
  · rename_i hs
    cases m with
    | nil => simp [List.find?] at hs
    | cons p t => simp
  · simp

theorem sortFold_none :
    ∀ (hs : List ObjectDiffBatch) (g : List (Nat × ObjectDiffBatch)) (w : List ObjectDiffBatch),
      (∀ h ∈ hs, batchUserCodeId h = none) →
      hs.foldl sortStep (g, w) = (g, w ++ hs) := by
  intro hs
  induction hs with
  | nil => intro g w _; simp
  | cons h rest ih =>
    intro g w hall
    simp only [List.foldl_cons]
    have hnone := hall h (List.mem_cons_self _ _)
    have hstep : sortStep (g, w) h = (g, w ++ [h]) := by simp [sortStep, hnone]
    rw [hstep]
    rw [ih g (w ++ [h]) (fun x hx => hall x (List.mem_cons_of_mem _ hx))]
    simp

theorem sortFold_grouped_ne_nil :
    ∀ (hs : List ObjectDiffBatch) (g : List (Nat × ObjectDiffBatch)) (w : List ObjectDiffBatch),
      (g ≠ [] ∨ ∃ h ∈ hs, (batchUserCodeId h).isSome) →
      (hs.foldl sortStep (g, w)).1 ≠ [] := by
  intro hs
  induction hs with
  | nil =>
    intro g w hcase
    rcases hcase with hg | ⟨h, hmem, _⟩
    · simpa using hg
    · simp at hmem
  | cons h rest ih =>
    intro g w hcase
    simp only [List.foldl_cons]
    cases hid : batchUserCodeId h with
    | some cid =>
      have hstep : sortStep (g, w) h = (dictSet g cid h, w) := by simp [sortStep, hid]
      rw [hstep]
      exact ih _ w (Or.inl (dictSet_ne_nil g cid h))
    | none =>
      have hstep : sortStep (g, w) h = (g, w ++ [h]) := by simp [sortStep, hid]
      rw [hstep]
      rcases hcase with hg | ⟨h2, hmem, hsome⟩
      · exact ih g _ (Or.inl hg)
      · rcases List.mem_cons.mp hmem with hhh | hr
        · subst hhh
          rw [hid] at hsome
          simp at hsome
        · exact ih g _ (Or.inr ⟨h2, hr, hsome⟩)

/-- C9 counterexample: two batches with no code-owned entity and root
identities 5 and 3, given in that order, are returned in input order, not in
identity order as the claim demands. -/
theorem C9_counterexample :
    sortHierarchiesRes [b5, b3] = Except.ok [b5, b3]
    ∧ (b5.root.map ObjectDiff.object_id = some 5 ∧ b3.root.map ObjectDiff.object_id = some 3)
    ∧ [b5, b3] ≠ [b3, b5] := by
  exact ⟨rfl, ⟨rfl, rfl⟩, by decide⟩

/-- C9 amended: when no batch is code-owned, ordering returns all batches
unchanged in input order (not identity order); when some batch is code-owned,
the ordering function fails: it stores a single batch where its declared type
is a list of batches and then calls the list sort method on that batch, which
raises AttributeError, so no sorted output is produced at all. -/
theorem C9_sort_behavior :
    (∀ hs : List ObjectDiffBatch,
        (∀ h ∈ hs, batchUserCodeId h = none) → sortHierarchiesRes hs = Except.ok hs)
    ∧ (∀ (hs : List ObjectDiffBatch) (h : ObjectDiffBatch), h ∈ hs →
        (batchUserCodeId h).isSome →
        sortHierarchiesRes hs =
          Except.error "AttributeError: ObjectDiffBatch object has no sort method") := by
  constructor
  · intro hs hall
    unfold sortHierarchiesRes
    rw [sortFold_none hs [] [] hall]
    simp
  · intro hs h hmem hsome
    unfold sortHierarchiesRes
    have hne := sortFold_grouped_ne_nil hs [] [] (Or.inr ⟨h, hmem, hsome⟩)
    cases hsp : hs.foldl sortStep ([], []) with
    | mk g w =>
      rw [hsp] at hne
      simp only at hne
      cases g with
      | nil => exact absurd rfl hne
      | cons p t => rfl

/-- Witness for C9 amended at concrete inputs: the no-code pair is returned
unchanged; a single code-owned batch produces the error. -/
theorem C9_sort_behavior_witness :
    (∀ h ∈ [b5, b3], batchUserCodeId h = none)
    ∧ sortHierarchiesRes [b5, b3] = Except.ok [b5, b3]
    ∧ (bUserCode ∈ [bUserCode] ∧ (batchUserCodeId bUserCode).isSome)
    ∧ sortHierarchiesRes [bUserCode] =
        Except.error "AttributeError: ObjectDiffBatch object has no sort method" := by
  refine ⟨by decide, ?_, ⟨by decide, by decide⟩, ?_⟩
  · exact C9_sort_behavior.1 [b5, b3] (by decide)
  · exact C9_sort_behavior.2 [bUserCode] bUserCode (by decide) (by decide)

theorem permsFold_mono (my : List Nat) :
    ∀ (src acc : List Nat) (p : Nat), p ∈ acc → p ∈ permsFold my acc src := by
  intro src
  induction src with
  | nil => intro acc p hp; simpa [permsFold] using hp
  | cons q rest ih =>
    intro acc p hp
    simp only [permsFold, List.foldl_cons]
    by_cases hq : q ∈ my ∨ q ∈ acc
    · rw [if_pos hq]
      exact ih acc p hp
    · rw [if_neg hq]
      exact ih (acc ++ [q]) p (List.mem_append_left _ hp)

theorem permsFold_adds (my : List Nat) :
    ∀ (src acc : List Nat) (p : Nat), p ∈ src → p ∉ my → p ∈ permsFold my acc src := by
  intro src
  induction src with
  | nil => intro acc p hp; simp at hp
  | cons q rest ih =>
    intro acc p hp hm
    simp only [permsFold, List.foldl_cons]
    rcases List.mem_cons.mp hp with hq | hr
    · subst hq
      by_cases hg : p ∈ my ∨ p ∈ acc
      · rw [if_pos hg]
        rcases hg with h | h
        · exact absurd h hm
        · exact permsFold_mono my rest acc p h
      · rw [if_neg hg]
        exact permsFold_mono my rest (acc ++ [p]) p (List.mem_append_right _ (by simp))
    · by_cases hg : q ∈ my ∨ q ∈ acc
      · rw [if_pos hg]; exact ih acc p hr hm
      · rw [if_neg hg]; exact ih (acc ++ [q]) p hr hm

theorem permsFold_nochange (my : List Nat) :
    ∀ (src acc : List Nat), (∀ q ∈ src, q ∈ my ∨ q ∈ acc) → permsFold my acc src = acc := by
  intro src
  induction src with
  | nil => intro acc _; rfl
  | cons q rest ih =>
    intro acc hall
    simp only [permsFold, List.foldl_cons]
    rw [if_pos (hall q (List.mem_cons_self _ _))]
    exact ih acc (fun x hx => hall x (List.mem_cons_of_mem _ hx))

theorem addCruds_alias (s : ResolvedSyncState) (d : ObjectDiff) (dec : String) :
    (s.add_cruds_from_diff d dec).alias' = s.alias' := by
  simp only [ResolvedSyncState.add_cruds_from_diff]
  repeat' split
  all_goals rfl

theorem addCruds_perms_eq (s : ResolvedSyncState) (d : ObjectDiff) (dec : String) :
    (s.add_cruds_from_diff d dec).new_permissions = s.new_permissions := by
  simp only [ResolvedSyncState.add_cruds_from_diff]
  repeat' split
  all_goals rfl

theorem addCruds_create_mono (s : ResolvedSyncState) (d : ObjectDiff) (dec : String)
    (x : SObj) (hx : x ∈ s.create_objs) :
    x ∈ (s.add_cruds_from_diff d dec).create_objs := by
  simp only [ResolvedSyncState.add_cruds_from_diff]
  repeat' split
  all_goals simp [hx]

theorem addCruds_update_mono (s : ResolvedSyncState) (d : ObjectDiff) (dec : String)
    (x : SObj) (hx : x ∈ s.update_objs) :
    x ∈ (s.add_cruds_from_diff d dec).update_objs := by
  simp only [ResolvedSyncState.add_cruds_from_diff]
  repeat' split
  all_goals simp [hx]

theorem addCruds_delete_mono (s : ResolvedSyncState) (d : ObjectDiff) (dec : String)
    (x : SObj) (hx : x ∈ s.delete_objs) :
    x ∈ (s.add_cruds_from_diff d dec).delete_objs := by
  simp only [ResolvedSyncState.add_cruds_from_diff]
  repeat' split
  all_goals simp [hx]

theorem addCruds_diff_adds (s : ResolvedSyncState) (d : ObjectDiff) (dec : String) (o : SObj)
    (hsame : ¬ d.status = "SAME") (hdiff : d.status = "DIFF") (hdec : dec ≠ s.alias')
    (hother : (if s.alias' = "high" then d.low_obj else d.high_obj) = some o) :
    o ∈ (s.add_cruds_from_diff d dec).update_objs := by
  simp only [ResolvedSyncState.add_cruds_from_diff]
  rw [if_neg hsame, if_pos hdec, if_pos hdiff, hother]
  repeat' split
  all_goals simp_all

theorem addCruds_new_creates (s : ResolvedSyncState) (d : ObjectDiff) (dec : String) (o : SObj)
    (hnew : d.status = "NEW") (hdec : dec ≠ s.alias')
    (hmy : (if s.alias' = "low" then d.low_obj else d.high_obj) = none)
    (hother : (if s.alias' = "high" then d.low_obj else d.high_obj) = some o) :
    o ∈ (s.add_cruds_from_diff d dec).create_objs := by
  have hsame : ¬ d.status = "SAME" := by rw [hnew]; decide
  have hdiff : ¬ d.status = "DIFF" := by rw [hnew]; decide
  simp only [ResolvedSyncState.add_cruds_from_diff]
  rw [if_neg hsame, if_pos hdec, if_neg hdiff, if_pos hnew, hmy, hother]
  repeat' split
  all_goals simp_all

theorem addCruds_new_deletes (s : ResolvedSyncState) (d : ObjectDiff) (dec : String) (m : SObj)
    (hnew : d.status = "NEW") (hdec : dec ≠ s.alias')
    (hmy : (if s.alias' = "low" then d.low_obj else d.high_obj) = some m)
    (hother : (if s.alias' = "high" then d.low_obj else d.high_obj) = none) :
    m ∈ (s.add_cruds_from_diff d dec).delete_objs := by
  have hsame : ¬ d.status = "SAME" := by rw [hnew]; decide
  have hdiff : ¬ d.status = "DIFF" := by rw [hnew]; decide
  simp only [ResolvedSyncState.add_cruds_from_diff]
  rw [if_neg hsame, if_pos hdec, if_neg hdiff, if_pos hnew, hmy, hother]
  repeat' split
  all_goals simp_all

theorem addCruds_absorb (s t : ResolvedSyncState) (d : ObjectDiff) (dec : String)
    (halias : t.alias' = s.alias')
    (hc : ∀ x ∈ (s.add_cruds_from_diff d dec).create_objs, x ∈ t.create_objs)
    (hu : ∀ x ∈ (s.add_cruds_from_diff d dec).update_objs, x ∈ t.update_objs)
    (hd : ∀ x ∈ (s.add_cruds_from_diff d dec).delete_objs, x ∈ t.delete_objs) :
    t.add_cruds_from_diff d dec = t := by
  by_cases hsame : d.status = "SAME"
  · simp only [ResolvedSyncState.add_cruds_from_diff]
    rw [if_pos hsame]
  · by_cases hdec : dec ≠ s.alias'
    · by_cases hdiff : d.status = "DIFF"
      · cases ho : (if s.alias' = "high" then d.low_obj else d.high_obj) with
        | none =>
          simp only [ResolvedSyncState.add_cruds_from_diff]
          rw [halias, if_neg hsame, if_pos hdec, if_pos hdiff, ho]
        | some o =>
          have hmem : o ∈ t.update_objs := hu o (addCruds_diff_adds s d dec o hsame hdiff hdec ho)
          simp only [ResolvedSyncState.add_cruds_from_diff]
          rw [halias, if_neg hsame, if_pos hdec, if_pos hdiff, ho]
          simp [hmem]
      · by_cases hnew : d.status = "NEW"
        · cases hmy : (if s.alias' = "low" then d.low_obj else d.high_obj) with
          | none =>
            cases ho : (if s.alias' = "high" then d.low_obj else d.high_obj) with
            | none =>
              simp only [ResolvedSyncState.add_cruds_from_diff]
              rw [halias, if_neg hsame, if_pos hdec, if_neg hdiff, if_pos hnew, hmy, ho]
            | some o =>
              have hmem : o ∈ t.create_objs :=
                hc o (addCruds_new_creates s d dec o hnew hdec hmy ho)
              simp only [ResolvedSyncState.add_cruds_from_diff]
              rw [halias, if_neg hsame, if_pos hdec, if_neg hdiff, if_pos hnew, hmy, ho]
              simp [hmem]
          | some m =>
            cases ho : (if s.alias' = "high" then d.low_obj else d.high_obj) with
            | none =>
              have hmem : m ∈ t.delete_objs :=
                hd m (addCruds_new_deletes s d dec m hnew hdec hmy ho)
              simp only [ResolvedSyncState.add_cruds_from_diff]
              rw [halias, if_neg hsame, if_pos hdec, if_neg hdiff, if_pos hnew, hmy, ho]
              simp [hmem]
            | some o =>
              simp only [ResolvedSyncState.add_cruds_from_diff]
              rw [halias, if_neg hsame, if_pos hdec, if_neg hdiff, if_pos hnew, hmy, ho]
        · simp only [ResolvedSyncState.add_cruds_from_diff]
          rw [halias, if_neg hsame, if_pos hdec, if_neg hdiff, if_neg hnew]
    · simp only [ResolvedSyncState.add_cruds_from_diff]
      rw [halias, if_neg hsame, if_neg hdec]

theorem addPerms_alias (s : ResolvedSyncState) (d : ObjectDiff) (dec : String) :
    (addPermsFromDiff s d dec).alias' = s.alias' := by
  simp only [addPermsFromDiff]
  split
  all_goals rfl

theorem addPerms_cruds (s : ResolvedSyncState) (d : ObjectDiff) (dec : String) :
    (addPermsFromDiff s d dec).create_objs = s.create_objs
    ∧ (addPermsFromDiff s d dec).update_objs = s.update_objs
    ∧ (addPermsFromDiff s d dec).delete_objs = s.delete_objs := by
  refine ⟨?_, ?_, ?_⟩
  all_goals simp only [addPermsFromDiff]
  all_goals split
  all_goals rfl

theorem addPerms_perms_mono (s : ResolvedSyncState) (d : ObjectDiff) (dec : String)
    (p : Nat) (hp : p ∈ s.new_permissions) :
    p ∈ (addPermsFromDiff s d dec).new_permissions := by
  simp only [addPermsFromDiff]
  split
  · exact permsFold_mono _ _ _ p hp
  · exact hp

theorem addPerms_adds (s : ResolvedSyncState) (d : ObjectDiff) (dec : String) (p : Nat)
    (hdec : dec ≠ s.alias')
    (hp : p ∈ (if s.alias' = "high" then d.low_permissions else d.high_permissions))
    (hnm : p ∉ (if s.alias' = "low" then d.low_permissions else d.high_permissions)) :
    p ∈ (addPermsFromDiff s d dec).new_permissions := by
  simp only [addPermsFromDiff]
  rw [if_pos hdec]
  exact permsFold_adds _ _ _ p hp hnm

theorem addPerms_absorb (u t : ResolvedSyncState) (d : ObjectDiff) (dec : String)
    (halias : t.alias' = u.alias')
    (hsub : ∀ p ∈ (addPermsFromDiff u d dec).new_permissions, p ∈ t.new_permissions) :
    addPermsFromDiff t d dec = t := by
  by_cases hdec : dec ≠ u.alias'
  · simp only [addPermsFromDiff]
    rw [halias, if_pos hdec]
    have hnc : permsFold (if u.alias' = "low" then d.low_permissions else d.high_permissions)
        t.new_permissions
        (if u.alias' = "high" then d.low_permissions else d.high_permissions)
        = t.new_permissions := by
      apply permsFold_nochange
      intro q hq
      by_cases hqm : q ∈ (if u.alias' = "low" then d.low_permissions else d.high_permissions)
      · exact Or.inl hqm
      · exact Or.inr (hsub q (addPerms_adds u d dec q hdec hq hqm))
    rw [hnc, ← halias]
  · simp only [addPermsFromDiff]
    rw [halias, if_neg hdec]

theorem step_alias (s : ResolvedSyncState) (d : ObjectDiff) (dec : String) :
    (resolveStateOne s d dec).alias' = s.alias' := by
  unfold resolveStateOne
  rw [addPerms_alias, addCruds_alias]

theorem step_mono (s : ResolvedSyncState) (d : ObjectDiff) (dec : String) :
    rssLe s (resolveStateOne s d dec) := by
  refine ⟨(step_alias s d dec).symm, ?_, ?_, ?_, ?_⟩
  · intro x hx
    unfold resolveStateOne
    rw [(addPerms_cruds _ _ _).1]
    exact addCruds_create_mono s d dec x hx
  · intro x hx
    unfold resolveStateOne
    rw [(addPerms_cruds _ _ _).2.1]
    exact addCruds_update_mono s d dec x hx
  · intro x hx
    unfold resolveStateOne
    rw [(addPerms_cruds _ _ _).2.2]
    exact addCruds_delete_mono s d dec x hx
  · intro p hp
    unfold resolveStateOne
    apply addPerms_perms_mono
    rw [addCruds_perms_eq]
    exact hp

theorem rssLe_trans (a b c : ResolvedSyncState) (h1 : rssLe a b) (h2 : rssLe b c) :
    rssLe a c := by
  obtain ⟨ha1, hc1, hu1, hd1, hp1⟩ := h1
  obtain ⟨ha2, hc2, hu2, hd2, hp2⟩ := h2
  exact ⟨ha1.trans ha2, fun x hx => hc2 x (hc1 x hx), fun x hx => hu2 x (hu1 x hx),
    fun x hx => hd2 x (hd1 x hx), fun p hp => hp2 p (hp1 p hp)⟩

theorem foldl_step_mono (dec : String) :
    ∀ (L : List ObjectDiff) (s : ResolvedSyncState),
      rssLe s (L.foldl (fun s d => resolveStateOne s d dec) s) := by
  intro L
  induction L with
  | nil => intro s; exact ⟨rfl, fun x hx => hx, fun x hx => hx, fun x hx => hx, fun p hp => hp⟩
  | cons d rest ih =>
    intro s
    simp only [List.foldl_cons]
    exact rssLe_trans _ _ _ (step_mono s d dec) (ih (resolveStateOne s d dec))

theorem step_absorb (s t : ResolvedSyncState) (d : ObjectDiff) (dec : String)
    (hle : rssLe (resolveStateOne s d dec) t) : resolveStateOne t d dec = t := by
  obtain ⟨halias, hc, hu, hd, hp⟩ := hle
  have hal : t.alias' = s.alias' := by rw [← halias, step_alias]
  have h1 : t.add_cruds_from_diff d dec = t := by
    apply addCruds_absorb s t d dec hal
    · intro x hx
      apply hc
      unfold resolveStateOne
      rw [(addPerms_cruds _ _ _).1]
      exact hx
    · intro x hx
      apply hu
      unfold resolveStateOne
      rw [(addPerms_cruds _ _ _).2.1]
      exact hx
    · intro x hx
      apply hd
      unfold resolveStateOne
      rw [(addPerms_cruds _ _ _).2.2]
      exact hx
  have h2 : addPermsFromDiff t d dec = t := by
    apply addPerms_absorb (s.add_cruds_from_diff d dec) t d dec
    · rw [hal, addCruds_alias]
    · intro p hpm
      apply hp
      unfold resolveStateOne
      exact hpm
  unfold resolveStateOne
  rw [h1, h2]

theorem foldl_step_alias (dec : String) :
    ∀ (L : List ObjectDiff) (s : ResolvedSyncState),
      (L.foldl (fun s d => resolveStateOne s d dec) s).alias' = s.alias' := by
  intro L
  induction L with
  | nil => intro s; rfl
  | cons d rest ih =>
    intro s
    simp only [List.foldl_cons]
    rw [ih, step_alias]

theorem foldl_step_cover (dec : String) :
    ∀ (L : List ObjectDiff) (s : ResolvedSyncState) (d : ObjectDiff), d ∈ L →
      ∃ u, rssLe (resolveStateOne u d dec) (L.foldl (fun s d => resolveStateOne s d dec) s)
        ∧ u.alias' = s.alias' := by
  intro L
  induction L with
  | nil => intro s d hd; simp at hd
  | cons d0 rest ih =>
    intro s d hd
    simp only [List.foldl_cons]
    rcases List.mem_cons.mp hd with hd0 | hdr
    · subst hd0
      exact ⟨s, foldl_step_mono dec rest (resolveStateOne s d dec), rfl⟩
    · obtain ⟨u, hle, hal⟩ := ih (resolveStateOne s d0 dec) d hdr
      exact ⟨u, hle, hal.trans (step_alias s d0 dec)⟩

theorem foldl_step_absorb (dec : String) :
    ∀ (L : List ObjectDiff) (t : ResolvedSyncState),
      (∀ d ∈ L, resolveStateOne t d dec = t) →
      L.foldl (fun s d => resolveStateOne s d dec) t = t := by
  intro L
  induction L with
  | nil => intro t _; rfl
  | cons d rest ih =>
    intro t hall
    simp only [List.foldl_cons]
    rw [hall d (List.mem_cons_self _ _)]
    exact ih t (fun x hx => hall x (List.mem_cons_of_mem _ hx))

theorem foldl_step_idem (dec : String) (L : List ObjectDiff) (s : ResolvedSyncState) :
    L.foldl (fun s d => resolveStateOne s d dec)
        (L.foldl (fun s d => resolveStateOne s d dec) s)
      = L.foldl (fun s d => resolveStateOne s d dec) s := by
  apply foldl_step_absorb
  intro d hd
  obtain ⟨u, hle, _⟩ := foldl_step_cover dec L s d hd
  exact step_absorb u _ d dec hle

/-- C6: resolving the same batch with the same decision twice in succession
yields the same pair of resolved states as resolving it once: every append in
add_cruds_from_diff and in the permission propagation is guarded by a
membership check, so a second pass adds nothing. -/
theorem C6_resolve_idempotent (batch : ObjectDiffBatch) (decision : String)
    (low high : ResolvedSyncState) :
    resolveBatch batch decision
        (resolveBatch batch decision low high).1 (resolveBatch batch decision low high).2
      = resolveBatch batch decision low high := by
  by_cases hski : decision = "skip" ∨ decision = "ignore"
  · simp only [resolveBatch, if_pos hski]
  · simp only [resolveBatch, if_neg hski]
    rw [foldl_step_idem, foldl_step_idem]

/-- C7: resolving a batch with sync_low_to_high (decision low) appends to the
high-alias state's new_permissions every grant present on the low side of a
diff of the batch and absent on its high side. -/
theorem C7_permissions (batch : ObjectDiffBatch) (d : ObjectDiff) (p : Nat)
    (low high : ResolvedSyncState)
    (halias : high.alias' = "high")
    (hd : d ∈ batch.diffs)
    (hp : p ∈ d.low_permissions) (hnp : p ∉ d.high_permissions) :
    p ∈ (resolveBatch batch "low" low high).2.new_permissions := by
  have hski : ¬ (("low" : String) = "skip" ∨ ("low" : String) = "ignore") := by decide
  simp only [resolveBatch, if_neg hski]
  obtain ⟨u, hle, hal⟩ := foldl_step_cover "low" batch.diffs high d hd
  apply hle.2.2.2.2
  unfold resolveStateOne
  apply addPerms_adds
  · rw [addCruds_alias, hal, halias]
    decide
  · rw [addCruds_alias, hal, halias]
    simpa using hp
  · rw [addCruds_alias, hal, halias]
    simpa using hnp

/-- Witness for C7 at a concrete input: permission 1 present only on the low
side of permDiff ends up in the high-alias new_permissions. -/
theorem C7_permissions_witness :
    (emptyState "high").alias' = "high"
    ∧ permDiff ∈ permBatch.diffs
    ∧ 1 ∈ permDiff.low_permissions
    ∧ 1 ∉ permDiff.high_permissions
    ∧ 1 ∈ (resolveBatch permBatch "low" (emptyState "low") (emptyState "high")).2.new_permissions := by
  refine ⟨rfl, by decide, by decide, by decide, ?_⟩
  exact C7_permissions permBatch permDiff 1 (emptyState "low") (emptyState "high")
    rfl (by decide) (by decide) (by decide)
